import Mathlib

/-!
Verification of the MediaGrabber job progress/retry/queueing subsystem.

The definitions below are shallow embeddings of the Python classes in
`backend/app/services/retry_policy.py`, `progress_bus.py`, `progress_store.py`,
`output_manager.py`, `transcode_queue.py` and
`backend/app/models/progress_state.py`.  Machine floats are modelled by `ℚ`,
Python ints by `ℤ`/`ℕ`, dictionaries by association lists (first match wins),
raised exceptions by `Except`, and the injectable clock by an explicit `now`
argument threaded through each call.
-/

namespace MediaGrabber

/-- One step of Python substring search: does `needle` occur in `haystack`?
`List.isPrefixOf` checks occurrence at the head; otherwise recurse on the tail. -/
def substrAux (needle : List Char) : List Char → Bool
  | [] => needle.isEmpty
  | c :: rest => needle.isPrefixOf (c :: rest) || substrAux needle rest

/-- Model of the Python `sub in s` substring containment test. -/
def containsSub (s sub : String) : Bool :=
  substrAux sub.toList s.toList

/-- Model of the Python `str.lower()` (ASCII case folding suffices for the
classification keywords, which are all ASCII). -/
def lower (s : String) : String :=
  String.mk (s.data.map Char.toLower)

/-- Enum `ErrorCategory` from `retry_policy.py`: the closed classification enum. -/
inductive ErrorCategory where
  | transient_network
  | platform_throttle
  | auth_failure
  | missing_dependency
  | io_error
  | permanent
  deriving DecidableEq, Repr

/-- The data `classify_error` inspects about a Python exception:
`type(exc).__name__` and `str(exc)`. -/
structure PyException where
  type_name : String
  message : String
  deriving DecidableEq, Repr

/-- Method `RetryPolicy.classify_error` from `retry_policy.py` lines 103-137,
translated branch by branch.  Note that in the missing-dependency branch the
Python source reads
`"not found" in exc_str or "no such file" in exc_str and "ffmpeg" in exc_str`,
and Python's `and` binds tighter than `or`, so the condition groups as
`A or (B and C)`; the embedding reproduces that grouping. -/
def classify_error (exc : PyException) : ErrorCategory :=
  let exc_type := exc.type_name
  let exc_str := lower exc.message
  if containsSub exc_str "timeout" || exc_type == "TimeoutError" then
    ErrorCategory.transient_network
  else if containsSub exc_str "429" || containsSub exc_str "too many requests" then
    ErrorCategory.platform_throttle
  else if containsSub exc_str "unauthorized" || containsSub exc_str "forbidden"
      || containsSub exc_str "auth" || exc_type == "PermissionError" then
    ErrorCategory.auth_failure
  else if containsSub exc_str "not found"
      || (containsSub exc_str "no such file" && containsSub exc_str "ffmpeg") then
    ErrorCategory.missing_dependency
  else if containsSub exc_str "disk" || containsSub exc_str "no space"
      || exc_type == "OSError" || exc_type == "IOError" then
    ErrorCategory.io_error
  else
    ErrorCategory.permanent

/-- Configuration of `RetryPolicy.__init__`: `_max_attempts`, `_base_delay`
and `_max_delay` (delays are floats, modelled by `ℚ`). -/
structure RetryPolicy where
  max_attempts : ℕ
  base_delay : ℚ
  max_delay : ℚ
  deriving Repr

/-- Method `RetryPolicy.calculate_backoff` from `retry_policy.py` lines 139-144:
`multiplier = 2.0` for platform throttles, else `1.0`;
`delay = base_delay * 2 ** (attempt - 1) * multiplier`, capped at `max_delay`. -/
def RetryPolicy.calculate_backoff (p : RetryPolicy) (attempt : ℕ)
    (category : ErrorCategory) : ℚ :=
  let multiplier : ℚ := if category = ErrorCategory.platform_throttle then 2 else 1
  let delay := p.base_delay * 2 ^ (attempt - 1) * multiplier
  min delay p.max_delay

/-- Property `RetryPolicy.attempts_remaining`: `max(0, max_attempts - attempt_count)`;
on `ℕ` truncated subtraction is exactly that. -/
def attempts_remaining (max_attempts attempt_count : ℕ) : ℕ :=
  max_attempts - attempt_count

/-- The loop body of `RetryPolicy.execute_with_retry` (lines 146-172): the
`attempt`-th iteration calls `work` once; a success returns immediately, a
failure re-raises when `attempt >= max_attempts` and otherwise proceeds to
attempt `attempt + 1` (the backoff sleep has no effect on the result).
`work` is indexed by the attempt number so that one run of the loop can be
described; the returned `ℕ` is the final value of `_attempt_count`, which the
loop sets to the current attempt number on every iteration. -/
def retry_go (max_attempts : ℕ) (work : ℕ → Except ε α) (attempt : ℕ) :
    Except ε α × ℕ :=
  match work attempt with
  | Except.ok v => (Except.ok v, attempt)
  | Except.error e =>
    if h : max_attempts ≤ attempt then (Except.error e, attempt)
    else retry_go max_attempts work (attempt + 1)
termination_by max_attempts - attempt
decreasing_by omega

/-- Method `RetryPolicy.execute_with_retry`: the loop starts at attempt 1. -/
def execute_with_retry (max_attempts : ℕ) (work : ℕ → Except ε α) :
    Except ε α × ℕ :=
  retry_go max_attempts work 1

/-- A work function that fails on attempts 1 and 2 and succeeds on attempt 3,
used to instantiate universally quantified theorems. -/
def c1WorkEventually : ℕ → Except ℕ ℕ :=
  fun i => if i ≤ 2 then Except.error i else Except.ok 42

/-- A work function that fails on every attempt, used to instantiate
universally quantified theorems. -/
def c1WorkAlwaysFails : ℕ → Except ℕ ℕ :=
  fun i => Except.error i

/-- Dataclass `ProgressState` from `models/progress_state.py` (floats modelled by `ℚ`,
`datetime` timestamps by `ℚ` seconds, the status literal by `String`). -/
structure ProgressState where
  job_id : String
  status : String
  stage : String
  percent : ℚ
  message : String := ""
  downloaded_bytes : ℤ := 0
  total_bytes : Option ℤ := none
  speed : Option ℚ := none
  eta_seconds : Option ℤ := none
  retry_after_seconds : Option ℤ := none
  attempts_remaining : Option ℤ := none
  remediation : Option String := none
  timestamp : ℚ := 0
  deriving DecidableEq, Repr

/-- Method `ProgressState.clamp_percent` (lines 63-68):
`self.percent = max(0.0, min(100.0, self.percent))`.  The Python method
mutates in place; the embedding returns the updated record. -/
def ProgressState.clamp_percent (st : ProgressState) : ProgressState :=
  { st with percent := max 0 (min 100 st.percent) }

/-- A concrete state with an under-range percent, used to instantiate
universally quantified theorems. -/
def stNeg : ProgressState :=
  { job_id := "j1", status := "downloading", stage := "dl", percent := -5 }

/-- A concrete state with an over-range percent, used to instantiate
universally quantified theorems. -/
def stOver : ProgressState :=
  { job_id := "j1", status := "downloading", stage := "dl", percent := 150 }

/-- A concrete state with an in-range percent, used to instantiate
universally quantified theorems. -/
def stHalf : ProgressState :=
  { job_id := "j1", status := "downloading", stage := "dl", percent := 50 }

/-- A concrete one-entry bus cache whose entry was stored at time 0, used to
instantiate universally quantified theorems. -/
def busExpired : List (String × ProgressState × ℚ) :=
  [("j1", stHalf, 0)]

/-- Class `ProgressBus`: `_ttl_seconds` plus the `_store` dictionary mapping a job id
to the latest `(state, timestamp)` pair.  The dictionary is an association
list in which the first matching key wins; subscriber callbacks do not affect
the cache and are not modelled. -/
structure ProgressBus where
  ttl_seconds : ℚ
  store : List (String × ProgressState × ℚ)
  deriving Repr

/-- Dictionary lookup `self._store.get(job_id)`. -/
def busGet (store : List (String × ProgressState × ℚ)) (job_id : String) :
    Option (ProgressState × ℚ) :=
  (store.find? (fun e => e.1 = job_id)).map (fun e => e.2)

/-- Dictionary assignment `self._store[job_id] = (state, now)`: any existing
entry for the key is replaced. -/
def busSet (store : List (String × ProgressState × ℚ)) (job_id : String)
    (v : ProgressState × ℚ) : List (String × ProgressState × ℚ) :=
  (job_id, v.1, v.2) :: store.filter (fun e => e.1 ≠ job_id)

/-- Method `ProgressBus._evict_expired` (lines 79-86): drop every entry with
`now - timestamp > ttl_seconds`. -/
def ProgressBus.evict_expired (bus : ProgressBus) (now : ℚ) : ProgressBus :=
  { bus with store := bus.store.filter (fun e => ¬ (now - e.2.2 > bus.ttl_seconds)) }

/-- Method `ProgressBus.publish` (lines 44-52): clamp the state's percent, store
`(state, now)` under its job id, then evict expired entries.  (The final
fan-out to subscribers does not touch the cache.) -/
def ProgressBus.publish (bus : ProgressBus) (state : ProgressState) (now : ℚ) :
    ProgressBus :=
  let state := state.clamp_percent
  ProgressBus.evict_expired
    { bus with store := busSet bus.store state.job_id (state, now) } now

/-- Method `ProgressBus.latest` (lines 62-71): absent key gives `none`; an entry
whose age exceeds the TTL is popped and gives `none`; otherwise the cached
state is returned.  The pair also carries the (possibly updated) bus. -/
def ProgressBus.latest (bus : ProgressBus) (job_id : String) (now : ℚ) :
    Option ProgressState × ProgressBus :=
  match busGet bus.store job_id with
  | none => (none, bus)
  | some (state, timestamp) =>
    if now - timestamp > bus.ttl_seconds then
      (none, { bus with store := bus.store.filter (fun e => e.1 ≠ job_id) })
    else
      (some state, bus)

/-- One entry of `ProgressStore._records[job_id]`: a `ProgressRecord`, i.e. a
state together with the record's own timestamp. -/
abbrev ProgressRecord := ProgressState × ℚ

/-- Class `ProgressStore`: `_ttl_seconds` plus `_records`, a dictionary from job id
to the append-only list of records. -/
structure ProgressStore where
  ttl_seconds : ℚ
  records : List (String × List ProgressRecord)

/-- Dictionary lookup `self._records.get(job_id)` / `job_id in self._records`. -/
def storeGet (records : List (String × List ProgressRecord)) (job_id : String) :
    Option (List ProgressRecord) :=
  (records.find? (fun e => e.1 = job_id)).map (fun e => e.2)

/-- Method `ProgressStore.record` (lines 28-35): create the job's list when missing,
then append `ProgressRecord(state, now)` unmodified. -/
def ProgressStore.record (ps : ProgressStore) (state : ProgressState) (now : ℚ) :
    ProgressStore :=
  match storeGet ps.records state.job_id with
  | none => { ps with records := ps.records ++ [(state.job_id, [(state, now)])] }
  | some _ =>
    { ps with
      records := ps.records.map (fun e =>
        if e.1 = state.job_id then (e.1, e.2 ++ [(state, now)]) else e) }

/-- Method `ProgressStore._get_valid_records` (lines 92-100): the records with
`now - timestamp < ttl_seconds`, in order. -/
def ProgressStore.get_valid_records (ps : ProgressStore) (job_id : String)
    (now : ℚ) : List ProgressRecord :=
  match storeGet ps.records job_id with
  | none => []
  | some recs => recs.filter (fun r => now - r.2 < ps.ttl_seconds)

/-- Method `ProgressStore.get_latest` (lines 37-45): the state of the last valid
record, if any. -/
def ProgressStore.get_latest (ps : ProgressStore) (job_id : String) (now : ℚ) :
    Option ProgressState :=
  match storeGet ps.records job_id with
  | none => none
  | some _ => ((ps.get_valid_records job_id now).getLast?).map (fun r => r.1)

/-- Model of the Python slice `lst[-limit:]` for a nonnegative `limit`: the whole list when
`limit = 0` (since `-0 == 0`), otherwise the last `limit` elements. -/
def pyTakeLast (l : List α) (limit : ℕ) : List α :=
  if limit = 0 then l else l.drop (l.length - limit)

/-- Method `ProgressStore.get_history` (lines 47-53): the states of the last
`limit` valid records. -/
def ProgressStore.get_history (ps : ProgressStore) (job_id : String) (now : ℚ)
    (limit : ℕ) : List ProgressState :=
  match storeGet ps.records job_id with
  | none => []
  | some _ => (pyTakeLast (ps.get_valid_records job_id now) limit).map (fun r => r.1)

/-- Method `ProgressStore.cleanup_expired` (lines 70-90), one job at a time: a job
whose records all expired is dropped and adds 1 to the count; a surviving job
keeps exactly its valid records and adds the number it lost. -/
def cleanupStep (now ttl : ℚ)
    (acc : List (String × List ProgressRecord) × ℕ)
    (entry : String × List ProgressRecord) :
    List (String × List ProgressRecord) × ℕ :=
  let valid := entry.2.filter (fun r => now - r.2 < ttl)
  if valid.isEmpty then
    (acc.1, acc.2 + 1)
  else
    (acc.1 ++ [(entry.1, valid)], acc.2 + (entry.2.length - valid.length))

/-- Method `ProgressStore.cleanup_expired`: sweep every job and return the updated
record table together with `expired_count`. -/
def ProgressStore.cleanup_expired (ps : ProgressStore) (now : ℚ) :
    ProgressStore × ℕ :=
  let res := ps.records.foldl (cleanupStep now ps.ttl_seconds) ([], 0)
  ({ ps with records := res.1 }, res.2)

/-- The failure message built by `OutputManager.ensure_free_space` when no
job directory is left to evict (an f-string over `free` and
`required_bytes`). -/
def lowDiskMessage (free required_bytes : ℤ) : String :=
  "磁碟空間不足：現有 " ++ toString free ++ " 位元組，需要 "
    ++ toString required_bytes ++ " 位元組。請手動清理檔案或增加磁碟空間。"

/-- The eviction loop of `OutputManager.ensure_free_space`
(`output_manager.py` lines 183-200).  `jobs` lists the sizes of the job
directories in eviction order (oldest modification time first; `oldest_job`
always picks the head).  While `free + freed < total_needed` the oldest job
is deleted and its size added to `freed`; when no job remains the loop fails
with the remediation message.  The returned list holds the jobs that were not
deleted. -/
def evictLoop (free total_needed required_bytes : ℤ) (freed : ℤ) :
    List ℕ → Bool × Option String × List ℕ
  | [] =>
    if free + freed < total_needed then
      (false, some (lowDiskMessage free required_bytes), [])
    else (true, none, [])
  | size :: rest =>
    if free + freed < total_needed then
      evictLoop free total_needed required_bytes (freed + (size : ℤ)) rest
    else (true, none, size :: rest)

/-- Method `OutputManager.ensure_free_space` (lines 158-200): succeed immediately
when `free >= required_bytes + min_free_bytes`, otherwise run the eviction
loop.  The filesystem is abstracted to the reported `free` bytes and the
job-directory sizes in eviction order; the third component of the result is
the list of surviving job directories. -/
def ensure_free_space (free : ℤ) (jobs : List ℕ)
    (required_bytes min_free_bytes : ℤ) : Bool × Option String × List ℕ :=
  let total_needed := required_bytes + min_free_bytes
  if free ≥ total_needed then
    (true, none, jobs)
  else
    evictLoop free total_needed required_bytes 0 jobs

/-- The two counters of `TranscodeQueue` (`_queue_depth`, `_active_workers`). -/
structure QueueState where
  queue_depth : ℤ
  active_workers : ℤ
  deriving DecidableEq, Repr

/-- Method `TranscodeQueue._enter_queue`. -/
def enter_queue (s : QueueState) : QueueState :=
  { s with queue_depth := s.queue_depth + 1 }

/-- Method `TranscodeQueue._leave_queue`. -/
def leave_queue (s : QueueState) : QueueState :=
  { s with queue_depth := s.queue_depth - 1 }

/-- Method `TranscodeQueue._mark_worker_start`. -/
def mark_worker_start (s : QueueState) : QueueState :=
  { s with active_workers := s.active_workers + 1 }

/-- Method `TranscodeQueue._mark_worker_end`. -/
def mark_worker_end (s : QueueState) : QueueState :=
  { s with active_workers := s.active_workers - 1 }

/-- Model of the Python `try: body finally: fin` pattern over state-threaded fallible code:
`fin` runs on every exit path, and the body's outcome (value or re-raised
exception) passes through unmodified. -/
def tryFinally (body : QueueState → Except ε α × QueueState)
    (fin : QueueState → QueueState) (s : QueueState) : Except ε α × QueueState :=
  let (r, s1) := body s
  (r, fin s1)

/-- Method `TranscodeQueue.run` (`transcode_queue.py` lines 75-83): enter the queue,
acquire a slot (the semaphore wait changes no counter), leave the queue, mark
the worker active, then run `work` under `try/finally` with
`_mark_worker_end` as the finaliser.  `worker_slot` (lines 85-96) performs
the identical bookkeeping around the yielded body. -/
def TranscodeQueue.run (work : QueueState → Except ε α × QueueState)
    (s : QueueState) : Except ε α × QueueState :=
  let s1 := enter_queue s
  let s2 := leave_queue s1
  let s3 := mark_worker_start s2
  tryFinally work mark_worker_end s3

/-- C2: `calculate_backoff(n, category)` equals
`min(base_delay * 2^(n-1) * multiplier, max_delay)` with `multiplier = 2` for
`platform_throttle` and `1` otherwise; for a nonnegative `base_delay` the
delay is monotone in the attempt number for a fixed category, and the
`platform_throttle` delay dominates the `transient_network` delay at every
attempt. -/
theorem c2_calculate_backoff_spec :
    (∀ (p : RetryPolicy) (n : ℕ) (cat : ErrorCategory), 1 ≤ n →
      p.calculate_backoff n cat =
        min (p.base_delay * 2 ^ (n - 1) *
          (if cat = ErrorCategory.platform_throttle then 2 else 1)) p.max_delay) ∧
    (∀ (p : RetryPolicy) (n : ℕ) (cat : ErrorCategory),
      0 ≤ p.base_delay → 1 ≤ n →
      p.calculate_backoff n cat ≤ p.calculate_backoff (n + 1) cat) ∧
    (∀ (p : RetryPolicy) (n : ℕ), 0 ≤ p.base_delay →
      p.calculate_backoff n ErrorCategory.transient_network ≤
        p.calculate_backoff n ErrorCategory.platform_throttle) := by
  refine ⟨fun p n cat _ => rfl, fun p n cat hb _ => ?_, fun p n hb => ?_⟩
  · apply min_le_min _ le_rfl
    have hm : (0:ℚ) ≤ (if cat = ErrorCategory.platform_throttle then 2 else 1) := by
      split <;> norm_num
    have hpow : (2:ℚ) ^ (n - 1) ≤ 2 ^ (n + 1 - 1) := by
      apply pow_le_pow_right₀ (by norm_num) (by omega)
    exact mul_le_mul_of_nonneg_right (mul_le_mul_of_nonneg_left hpow hb) hm
  · have hpos : (0:ℚ) ≤ p.base_delay * 2 ^ (n - 1) := by positivity
    show min (p.base_delay * 2 ^ (n - 1) *
        (if ErrorCategory.transient_network = ErrorCategory.platform_throttle
          then 2 else 1)) p.max_delay ≤
      min (p.base_delay * 2 ^ (n - 1) *
        (if ErrorCategory.platform_throttle = ErrorCategory.platform_throttle
          then 2 else 1)) p.max_delay
    rw [if_neg (by decide), if_pos rfl]
    exact min_le_min (mul_le_mul_of_nonneg_left (by norm_num) hpos) le_rfl

/-- Witness for C2 at the default policy (`base_delay = 1`, `max_delay = 60`)
and attempt 2. -/
theorem c2_calculate_backoff_spec_witness :
    (RetryPolicy.mk 3 1 60).calculate_backoff 2 ErrorCategory.transient_network =
      min ((1:ℚ) * 2 ^ (2 - 1) *
        (if ErrorCategory.transient_network = ErrorCategory.platform_throttle
          then 2 else 1)) 60 ∧
    (RetryPolicy.mk 3 1 60).calculate_backoff 2 ErrorCategory.transient_network ≤
      (RetryPolicy.mk 3 1 60).calculate_backoff 3 ErrorCategory.transient_network ∧
    (RetryPolicy.mk 3 1 60).calculate_backoff 2 ErrorCategory.transient_network ≤
      (RetryPolicy.mk 3 1 60).calculate_backoff 2 ErrorCategory.platform_throttle :=
  ⟨c2_calculate_backoff_spec.1 (RetryPolicy.mk 3 1 60) 2
      ErrorCategory.transient_network (by norm_num),
   c2_calculate_backoff_spec.2.1 (RetryPolicy.mk 3 1 60) 2
      ErrorCategory.transient_network (by norm_num) (by norm_num),
   c2_calculate_backoff_spec.2.2 (RetryPolicy.mk 3 1 60) 2 (by norm_num)⟩

/-- C3 counterexample: the message "Timeout fetching after HTTP 429" contains
"429", yet `classify_error` returns `transient_network`, because the timeout
rule is checked first.  This refutes "with no exception for messages that
also contain other classification substrings such as timeout". -/
theorem c3_429_counterexample :
    containsSub (lower "Timeout fetching after HTTP 429") "429" = true ∧
    classify_error (PyException.mk "DownloadError" "Timeout fetching after HTTP 429") =
      ErrorCategory.transient_network ∧
    classify_error (PyException.mk "DownloadError" "Timeout fetching after HTTP 429") ≠
      ErrorCategory.platform_throttle :=
  ⟨by decide, by decide, by decide⟩

/-- C3 (amended): every exception whose lowercased message contains "429" or
"too many requests" is classified `platform_throttle`, provided the message
does not contain "timeout" and the exception type is not `TimeoutError`
(the timeout rule precedes the rate-limit rule). -/
theorem c3_429_amended (exc : PyException)
    (h429 : containsSub (lower exc.message) "429" = true ∨
      containsSub (lower exc.message) "too many requests" = true)
    (hto : containsSub (lower exc.message) "timeout" = false)
    (hty : exc.type_name ≠ "TimeoutError") :
    classify_error exc = ErrorCategory.platform_throttle := by
  have h1 : (containsSub (lower exc.message) "timeout"
      || (exc.type_name == "TimeoutError")) = false := by
    simp [hto, hty]
  have h2 : (containsSub (lower exc.message) "429"
      || containsSub (lower exc.message) "too many requests") = true := by
    rcases h429 with h | h <;> simp [h]
  simp only [classify_error, h1, h2, Bool.false_eq_true, if_false, if_true]

/-- Witness for the amended C3 at a concrete throttled exception. -/
theorem c3_429_amended_witness :
    classify_error (PyException.mk "HTTPError" "HTTP Error 429 from server") =
      ErrorCategory.platform_throttle :=
  c3_429_amended (PyException.mk "HTTPError" "HTTP Error 429 from server")
    (Or.inl (by decide)) (by decide) (by decide)

/-- C4: evaluation of `classify_error` at the failing input
`DownloadError("video not found")`.  The message contains "not found" but not
"ffmpeg", so the claim (and the spec's table) require `permanent`; the code
returns `missing_dependency` because in
`"not found" in exc_str or "no such file" in exc_str and "ffmpeg" in exc_str`
the `and` binds tighter than the `or`, making the "ffmpeg" test apply only to
the "no such file" arm. -/
theorem c4_not_found_without_ffmpeg :
    classify_error (PyException.mk "DownloadError" "video not found") =
      ErrorCategory.missing_dependency ∧
    containsSub (lower "video not found") "ffmpeg" = false ∧
    classify_error (PyException.mk "DownloadError" "video not found") ≠
      ErrorCategory.permanent :=
  ⟨by decide, by decide, by decide⟩

/-- C9: the transcode queue passes the work's outcome through unmodified —
in particular it re-raises an exception as-is — and the `finally` bookkeeping
restores both counters to their pre-call values; upon slot acquisition
`queue_depth` is already back to its entry value while `active_workers` is
up by one. -/
theorem c9_transcode_queue_run_spec :
    ∀ (s : QueueState) (r : Except String ℕ),
      TranscodeQueue.run (fun st => (r, st)) s = (r, s) ∧
      (∀ e, r = Except.error e → (TranscodeQueue.run (fun st => (r, st)) s).1 =
        Except.error e) ∧
      (mark_worker_start (leave_queue (enter_queue s))).queue_depth =
        s.queue_depth ∧
      (mark_worker_start (leave_queue (enter_queue s))).active_workers =
        s.active_workers + 1 := by
  intro s r
  have hrun : TranscodeQueue.run (fun st => (r, st)) s = (r, s) := by
    simp [TranscodeQueue.run, tryFinally, enter_queue, leave_queue,
      mark_worker_start, mark_worker_end]
  refine ⟨hrun, fun e he => by rw [hrun, he], ?_, ?_⟩
  · simp [enter_queue, leave_queue, mark_worker_start]
  · simp [enter_queue, leave_queue, mark_worker_start]

/-- Witness for C9 at a failing work item on a queue with one task pending. -/
theorem c9_transcode_queue_run_spec_witness :
    TranscodeQueue.run
        (fun st => ((Except.error "ffmpeg exited 1" : Except String ℕ), st))
        (QueueState.mk 1 0) =
      ((Except.error "ffmpeg exited 1" : Except String ℕ), QueueState.mk 1 0) ∧
    (TranscodeQueue.run
        (fun st => ((Except.error "ffmpeg exited 1" : Except String ℕ), st))
        (QueueState.mk 1 0)).1 = Except.error "ffmpeg exited 1" :=
  ⟨(c9_transcode_queue_run_spec (QueueState.mk 1 0)
      (Except.error "ffmpeg exited 1")).1,
   (c9_transcode_queue_run_spec (QueueState.mk 1 0)
      (Except.error "ffmpeg exited 1")).2.1 "ffmpeg exited 1" rfl⟩

/-- C5: `clamp_percent` lands in `[0, 100]` for every input percent, and
since `publish` clamps before storing, a bus cache whose entries are all in
range stays in range across any `publish`. -/
theorem c5_percent_clamped :
    (∀ st : ProgressState,
      0 ≤ st.clamp_percent.percent ∧ st.clamp_percent.percent ≤ 100) ∧
    (∀ (bus : ProgressBus) (st : ProgressState) (now : ℚ),
      (∀ e ∈ bus.store, 0 ≤ e.2.1.percent ∧ e.2.1.percent ≤ 100) →
      ∀ e ∈ (bus.publish st now).store,
        0 ≤ e.2.1.percent ∧ e.2.1.percent ≤ 100) := by
  have hclamp : ∀ st : ProgressState,
      0 ≤ st.clamp_percent.percent ∧ st.clamp_percent.percent ≤ 100 := by
    intro st
    refine ⟨le_max_left 0 _, max_le (by norm_num) (min_le_left 100 _)⟩
  refine ⟨hclamp, fun bus st now hinv e he => ?_⟩
  simp only [ProgressBus.publish, ProgressBus.evict_expired, busSet,
    List.mem_filter, List.mem_cons] at he
  rcases he with ⟨he | he, -⟩
  · subst he
    exact hclamp st
  · exact hinv e he.1

/-- Witness for C5: clamping `-5` and `150`, and publishing a `percent = 150`
state onto an empty bus keeps the cache in range. -/
theorem c5_percent_clamped_witness :
    (0 ≤ stNeg.clamp_percent.percent ∧ stNeg.clamp_percent.percent ≤ 100) ∧
    (0 ≤ stOver.clamp_percent.percent ∧ stOver.clamp_percent.percent ≤ 100) ∧
    (∀ e ∈ ((ProgressBus.mk 300 []).publish stOver 0).store,
      0 ≤ e.2.1.percent ∧ e.2.1.percent ≤ 100) :=
  ⟨c5_percent_clamped.1 stNeg, c5_percent_clamped.1 stOver,
   c5_percent_clamped.2 (ProgressBus.mk 300 []) stOver 0 (by simp)⟩

/-- The eviction loop fails with the low-disk message whenever even evicting
every remaining job directory cannot reach the target. -/
lemma evictLoop_exhausted (free total_needed required_bytes : ℤ) :
    ∀ (jobs : List ℕ) (freed : ℤ),
      free + freed + (jobs.sum : ℤ) < total_needed →
      evictLoop free total_needed required_bytes freed jobs =
        (false, some (lowDiskMessage free required_bytes), []) := by
  intro jobs
  induction jobs with
  | nil =>
    intro freed h
    simp only [List.sum_nil, Nat.cast_zero, add_zero] at h
    show (if free + freed < total_needed then
        (false, some (lowDiskMessage free required_bytes), [])
      else (true, none, ([] : List ℕ))) =
      (false, some (lowDiskMessage free required_bytes), [])
    rw [if_pos h]
  | cons size rest ih =>
    intro freed h
    have hsum : (((size :: rest).sum : ℕ) : ℤ) = (size : ℤ) + ((rest.sum : ℕ) : ℤ) := by
      push_cast [List.sum_cons]
      ring
    rw [hsum] at h
    have hpos : (0:ℤ) ≤ (size : ℤ) + ((rest.sum : ℕ) : ℤ) := by positivity
    have hlt : free + freed < total_needed := by omega
    have hrec : free + (freed + (size : ℤ)) + ((rest.sum : ℕ) : ℤ) < total_needed := by
      omega
    show (if free + freed < total_needed then
        evictLoop free total_needed required_bytes (freed + (size : ℤ)) rest
      else (true, none, size :: rest)) =
      (false, some (lowDiskMessage free required_bytes), [])
    rw [if_pos hlt]
    exact ih (freed + (size : ℤ)) hrec

/-- The low-disk remediation message is never empty. -/
lemma lowDiskMessage_ne_empty (free required_bytes : ℤ) :
    lowDiskMessage free required_bytes ≠ "" := by
  intro h
  have hlen := congrArg String.length h
  simp only [lowDiskMessage, String.length_append] at hlen
  have h10 : ("磁碟空間不足：現有 " : String).length = 10 := by decide
  have h0 : ("" : String).length = 0 := rfl
  rw [h10, h0] at hlen
  omega

/-- C8: `ensure_free_space` returns `(True, None)` with no eviction whenever
the reported free space already covers `required_bytes + min_free_bytes`, and
returns `(False, msg)` with a non-empty message (rather than raising) whenever
the target cannot be met even after evicting every job directory — in
particular when none exist. -/
theorem c8_ensure_free_space_spec :
    (∀ (free : ℤ) (jobs : List ℕ) (required_bytes min_free_bytes : ℤ),
      required_bytes + min_free_bytes ≤ free →
      ensure_free_space free jobs required_bytes min_free_bytes =
        (true, none, jobs)) ∧
    (∀ (free : ℤ) (jobs : List ℕ) (required_bytes min_free_bytes : ℤ),
      free + (jobs.sum : ℤ) < required_bytes + min_free_bytes →
      ensure_free_space free jobs required_bytes min_free_bytes =
        (false, some (lowDiskMessage free required_bytes), []) ∧
      lowDiskMessage free required_bytes ≠ "") := by
  constructor
  · intro free jobs required_bytes min_free_bytes h
    simp [ensure_free_space, ge_iff_le, h]
  · intro free jobs required_bytes min_free_bytes h
    have hpos : (0:ℤ) ≤ (jobs.sum : ℤ) := by positivity
    have hnot : ¬ (required_bytes + min_free_bytes ≤ free) := by omega
    refine ⟨?_, lowDiskMessage_ne_empty free required_bytes⟩
    simp only [ensure_free_space, ge_iff_le, if_neg hnot]
    exact evictLoop_exhausted free (required_bytes + min_free_bytes)
      required_bytes jobs 0 (by omega)

/-- Witness for C8: a 1 GiB-free filesystem meets a 100 MiB requirement with
no eviction; an empty filesystem with zero job directories fails with a
non-empty message. -/
theorem c8_ensure_free_space_spec_witness :
    ensure_free_space 1073741824 [52428800] 104857600 104857600 =
      (true, none, [52428800]) ∧
    ensure_free_space 0 [] 104857600 104857600 =
      (false, some (lowDiskMessage 0 104857600), []) ∧
    lowDiskMessage 0 104857600 ≠ "" :=
  ⟨c8_ensure_free_space_spec.1 1073741824 [52428800] 104857600 104857600
      (by norm_num),
   (c8_ensure_free_space_spec.2 0 [] 104857600 104857600 (by norm_num)).1,
   (c8_ensure_free_space_spec.2 0 [] 104857600 104857600 (by norm_num)).2⟩

/-- Unfolding of `retry_go` at an attempt on which `work` fails. -/
lemma retry_go_error_step (m : ℕ) (work : ℕ → Except ε α) (a : ℕ) (e : ε)
    (hw : work a = Except.error e) :
    retry_go m work a =
      if m ≤ a then (Except.error e, a) else retry_go m work (a + 1) := by
  rw [retry_go.eq_def, hw]
  by_cases h : m ≤ a
  · simp [h]
  · simp [h]

/-- Unfolding of `retry_go` at an attempt on which `work` succeeds. -/
lemma retry_go_ok (m : ℕ) (work : ℕ → Except ε α) (a : ℕ) (v : α)
    (hw : work a = Except.ok v) :
    retry_go m work a = (Except.ok v, a) := by
  rw [retry_go.eq_def, hw]

/-- A permanently failing work function drives the loop to the last attempt,
whose error is re-raised with `_attempt_count = max_attempts`. -/
lemma retry_go_all_fail (m : ℕ) (work : ℕ → Except ε α) (err : ℕ → ε)
    (hw : ∀ i, work i = Except.error (err i)) :
    ∀ (n a : ℕ), m - a = n → 1 ≤ a → a ≤ m →
      retry_go m work a = (Except.error (err m), m) := by
  intro n
  induction n with
  | zero =>
    intro a hna h1 h2
    have ha : a = m := by omega
    rw [retry_go_error_step m work a (err a) (hw a), if_pos (by omega), ha]
  | succ n ih =>
    intro a hna h1 h2
    rw [retry_go_error_step m work a (err a) (hw a), if_neg (by omega)]
    exact ih (a + 1) (by omega) (by omega) (by omega)

/-- A work function failing up to attempt `k` and succeeding at `k + 1`
drives the loop from any attempt `a ≤ k + 1` to the success at `k + 1`. -/
lemma retry_go_succeeds (m : ℕ) (work : ℕ → Except ε α) (k : ℕ) (v : α)
    (hfail : ∀ i, 1 ≤ i → i ≤ k → ∃ e, work i = Except.error e)
    (hok : work (k + 1) = Except.ok v) (hk : k < m) :
    ∀ (n a : ℕ), k + 1 - a = n → 1 ≤ a → a ≤ k + 1 →
      retry_go m work a = (Except.ok v, k + 1) := by
  intro n
  induction n with
  | zero =>
    intro a hna h1 h2
    have ha : a = k + 1 := by omega
    rw [ha]
    exact retry_go_ok m work (k + 1) v hok
  | succ n ih =>
    intro a hna h1 h2
    obtain ⟨e, he⟩ := hfail a h1 (by omega)
    rw [retry_go_error_step m work a e he, if_neg (by omega)]
    exact ih (a + 1) (by omega) (by omega) (by omega)

/-- C1: when `work` fails on exactly the first `k < max_attempts` attempts
and succeeds on attempt `k + 1`, `execute_with_retry` returns that success
and leaves `_attempt_count = k + 1`; when `work` fails on every attempt, it
re-raises the error of attempt `max_attempts` after exactly `max_attempts`
invocations (the final `_attempt_count`), leaving `attempts_remaining = 0`. -/
theorem c1_execute_with_retry_spec {ε α : Type} :
    ∀ (max_attempts : ℕ), 1 ≤ max_attempts →
      (∀ (work : ℕ → Except ε α) (k : ℕ) (v : α),
        k < max_attempts →
        (∀ i, 1 ≤ i → i ≤ k → ∃ e, work i = Except.error e) →
        work (k + 1) = Except.ok v →
        execute_with_retry max_attempts work = (Except.ok v, k + 1)) ∧
      (∀ (work : ℕ → Except ε α) (err : ℕ → ε),
        (∀ i, work i = Except.error (err i)) →
        execute_with_retry max_attempts work =
          (Except.error (err max_attempts), max_attempts) ∧
        attempts_remaining max_attempts max_attempts = 0) := by
  intro m hm
  constructor
  · intro work k v hk hfail hok
    exact retry_go_succeeds m work k v hfail hok hk k 1 (by omega) le_rfl (by omega)
  · intro work err hw
    refine ⟨retry_go_all_fail m work err hw (m - 1) 1 (by omega) le_rfl hm, ?_⟩
    simp [attempts_remaining]

/-- Witness for C1: two failures then a success under `max_attempts = 5`
returns the success at attempt 3; a permanently failing work under
`max_attempts = 3` re-raises attempt 3's error with no attempts remaining. -/
theorem c1_execute_with_retry_spec_witness :
    execute_with_retry 5 c1WorkEventually = (Except.ok 42, 3) ∧
    execute_with_retry 3 c1WorkAlwaysFails = (Except.error 3, 3) ∧
    attempts_remaining 3 3 = 0 := by
  refine ⟨(c1_execute_with_retry_spec 5 (by norm_num)).1 c1WorkEventually 2 42
      (by norm_num)
      (fun i h1 h2 => ⟨i, by simp only [c1WorkEventually, if_pos h2]⟩)
      (by norm_num [c1WorkEventually]), ?_, ?_⟩
  · exact ((c1_execute_with_retry_spec 3 (by norm_num)).2 c1WorkAlwaysFails
      (fun i => i) (fun i => rfl)).1
  · exact ((c1_execute_with_retry_spec 3 (by norm_num)).2 c1WorkAlwaysFails
      (fun i => i) (fun i => rfl)).2

/-- C6: publishing and immediately reading back (same clock value) returns a
state carrying the published job id; `latest` yields `none` exactly when the
key is absent or the stored entry's age strictly exceeds the TTL; and in the
expired case `latest` removes the job's entry from the cache. -/
theorem c6_bus_latest_spec :
    (∀ (bus : ProgressBus) (st : ProgressState) (now : ℚ),
      0 ≤ bus.ttl_seconds →
      ((bus.publish st now).latest st.job_id now).1 = some st.clamp_percent ∧
      st.clamp_percent.job_id = st.job_id) ∧
    (∀ (bus : ProgressBus) (j : String) (now : ℚ),
      (bus.latest j now).1 = none ↔
        busGet bus.store j = none ∨
        ∃ st ts, busGet bus.store j = some (st, ts) ∧
          now - ts > bus.ttl_seconds) ∧
    (∀ (bus : ProgressBus) (j : String) (now : ℚ) (st : ProgressState) (ts : ℚ),
      busGet bus.store j = some (st, ts) → now - ts > bus.ttl_seconds →
      (bus.latest j now).2.store = bus.store.filter (fun e => e.1 ≠ j)) := by
  refine ⟨?_, ?_, ?_⟩
  · intro bus st now httl
    refine ⟨?_, rfl⟩
    have hage : ¬ (now - now > bus.ttl_seconds) := by
      simp only [gt_iff_lt, sub_self, not_lt]
      exact httl
    have hset : (bus.publish st now).store =
        (st.job_id, st.clamp_percent, now) ::
          ((bus.store.filter (fun e => e.1 ≠ st.job_id)).filter
            (fun e => ¬ (now - e.2.2 > bus.ttl_seconds))) := by
      simp only [ProgressBus.publish, ProgressBus.evict_expired, busSet]
      rw [List.filter_cons_of_pos (by simpa using hage)]
      rfl
    have hget : busGet (bus.publish st now).store st.job_id =
        some (st.clamp_percent, now) := by
      rw [hset]
      simp [busGet]
    have httlq : (bus.publish st now).ttl_seconds = bus.ttl_seconds := rfl
    simp only [ProgressBus.latest, hget, httlq]
    rw [if_neg hage]
  · intro bus j now
    rcases hget : busGet bus.store j with - | ⟨st, ts⟩
    · simp [ProgressBus.latest, hget]
    · by_cases hexp : now - ts > bus.ttl_seconds
      · simp only [ProgressBus.latest, hget]
        rw [if_pos hexp]
        constructor
        · intro _
          exact Or.inr ⟨st, ts, rfl, hexp⟩
        · intro _
          rfl
      · simp only [ProgressBus.latest, hget]
        rw [if_neg hexp]
        simp only [Option.some_ne_none, false_iff, not_or, not_exists]
        refine ⟨by simp, fun st' ts' h => ?_⟩
        obtain ⟨h1, h2⟩ := h
        obtain ⟨rfl, rfl⟩ : st = st' ∧ ts = ts' := by
          simpa using h1
        exact hexp h2
  · intro bus j now st ts hget hexp
    simp only [ProgressBus.latest, hget]
    rw [if_pos hexp]

/-- Witness for C6: a publish at time 0 onto an empty 300-second-TTL bus is
immediately readable, and a lone entry stored at time 0 read at time 1000 is
evicted. -/
theorem c6_bus_latest_spec_witness :
    (((ProgressBus.mk 300 []).publish stOver 0).latest stOver.job_id 0).1 =
      some stOver.clamp_percent ∧
    ((ProgressBus.mk 300 busExpired).latest "j1" 1000).2.store =
      busExpired.filter (fun e => e.1 ≠ "j1") :=
  ⟨(c6_bus_latest_spec.1 (ProgressBus.mk 300 []) stOver 0 (by norm_num)).1,
   c6_bus_latest_spec.2.2 (ProgressBus.mk 300 busExpired) "j1" 1000 stHalf 0
     (by simp [busExpired, busGet]) (by norm_num)⟩

/-- Characterization of the `cleanup_expired` fold for any starting
accumulator: it appends the surviving jobs (those with at least one valid
record, restricted to their valid records) and adds one per dropped job plus
the number of records removed from each surviving job. -/
lemma cleanup_foldl (now ttl : ℚ) :
    ∀ (l : List (String × List ProgressRecord))
      (acc : List (String × List ProgressRecord) × ℕ),
      l.foldl (cleanupStep now ttl) acc =
        (acc.1 ++ l.filterMap (fun e =>
            if (e.2.filter (fun r => now - r.2 < ttl)).isEmpty then none
            else some (e.1, e.2.filter (fun r => now - r.2 < ttl))),
         acc.2 + ((l.filter (fun e =>
              (e.2.filter (fun r => now - r.2 < ttl)).isEmpty)).length
           + (l.map (fun e =>
              if (e.2.filter (fun r => now - r.2 < ttl)).isEmpty then 0
              else e.2.length - (e.2.filter (fun r => now - r.2 < ttl)).length)).sum)) := by
  intro l
  induction l with
  | nil =>
    intro acc
    simp
  | cons head tail ih =>
    intro acc
    rw [List.foldl_cons, ih]
    by_cases hcase : (head.2.filter (fun r => now - r.2 < ttl)).isEmpty
    · simp only [cleanupStep, hcase, if_true, List.filterMap_cons,
        List.filter_cons, List.map_cons, List.sum_cons]
      refine Prod.ext rfl ?_
      simp [hcase]
      omega
    · simp only [cleanupStep, hcase, if_false, List.filterMap_cons,
        List.filter_cons, List.map_cons, List.sum_cons, Bool.false_eq_true]
      refine Prod.ext ?_ ?_
      · simp [hcase, List.append_assoc]
      · simp [hcase]
        omega

/-- C7: `cleanup_expired` keeps, for each job, exactly the records younger
than the TTL, drops every job with no surviving record, and returns the
number of dropped jobs plus the number of expired records removed from the
surviving jobs. -/
theorem c7_cleanup_expired_spec (ps : ProgressStore) (now : ℚ) :
    (ps.cleanup_expired now).1.records =
      ps.records.filterMap (fun e =>
        if (e.2.filter (fun r => now - r.2 < ps.ttl_seconds)).isEmpty then none
        else some (e.1, e.2.filter (fun r => now - r.2 < ps.ttl_seconds))) ∧
    (ps.cleanup_expired now).1.ttl_seconds = ps.ttl_seconds ∧
    (ps.cleanup_expired now).2 =
      (ps.records.filter (fun e =>
        (e.2.filter (fun r => now - r.2 < ps.ttl_seconds)).isEmpty)).length
      + (ps.records.map (fun e =>
          if (e.2.filter (fun r => now - r.2 < ps.ttl_seconds)).isEmpty then 0
          else e.2.length
            - (e.2.filter (fun r => now - r.2 < ps.ttl_seconds)).length)).sum := by
  have h := cleanup_foldl now ps.ttl_seconds ps.records ([], 0)
  refine ⟨?_, rfl, ?_⟩
  · show (ps.records.foldl (cleanupStep now ps.ttl_seconds) ([], 0)).1 = _
    rw [h]
    simp
  · show (ps.records.foldl (cleanupStep now ps.ttl_seconds) ([], 0)).2 = _
    rw [h]
    simp

/-- The append-to-existing-job branch of `record` keeps the first match for
the key in the dictionary, with the new record appended to its list. -/
lemma find?_map_append (j : String) (x : ProgressRecord) :
    ∀ (l : List (String × List ProgressRecord)) (e0 : String × List ProgressRecord),
      l.find? (fun e => e.1 = j) = some e0 →
      (l.map (fun e => if e.1 = j then (e.1, e.2 ++ [x]) else e)).find?
          (fun e => e.1 = j) = some (e0.1, e0.2 ++ [x]) := by
  intro l
  induction l with
  | nil =>
    intro e0 h
    simp at h
  | cons head tail ih =>
    intro e0 h
    by_cases hh : head.1 = j
    · have hhead : head = e0 := by
        rw [List.find?_cons_of_pos _ (by simp [hh])] at h
        simpa using h
      subst hhead
      simp only [List.map_cons, if_pos hh]
      rw [List.find?_cons_of_pos _ (by simp [hh])]
    · rw [List.find?_cons_of_neg _ (by simp [hh])] at h
      simp only [List.map_cons, if_neg hh]
      rw [List.find?_cons_of_neg _ (by simp [hh])]
      exact ih e0 h

/-- Method `ProgressStore.record` leaves `_ttl_seconds` unchanged. -/
lemma record_ttl (ps : ProgressStore) (st : ProgressState) (now : ℚ) :
    (ps.record st now).ttl_seconds = ps.ttl_seconds := by
  unfold ProgressStore.record
  cases storeGet ps.records st.job_id <;> rfl

/-- After `record`, looking the job up returns its previous record list with
`(state, now)` appended (previous list empty when the job was absent). -/
lemma storeGet_record (ps : ProgressStore) (st : ProgressState) (now : ℚ) :
    storeGet (ps.record st now).records st.job_id =
      some ((storeGet ps.records st.job_id).getD [] ++ [(st, now)]) := by
  unfold ProgressStore.record
  cases hget : storeGet ps.records st.job_id with
  | none =>
    have hnone : ps.records.find? (fun e => e.1 = st.job_id) = none := by
      rcases hf : ps.records.find? (fun e => e.1 = st.job_id) with - | e
      · exact hf
      · unfold storeGet at hget
        rw [hf] at hget
        simp at hget
    simp only [hget, storeGet, List.find?_append, hnone, Option.none_or]
    rw [List.find?_cons_of_pos _ (by simp)]
    simp
  | some recs =>
    obtain ⟨e0, he0, hre⟩ : ∃ e0,
        ps.records.find? (fun e => e.1 = st.job_id) = some e0 ∧ e0.2 = recs := by
      unfold storeGet at hget
      rw [Option.map_eq_some'] at hget
      exact hget
    simp only [hget, storeGet]
    rw [find?_map_append st.job_id (st, now) ps.records e0 he0]
    simp [hre]

/-- The last element of Python's `lst[-limit:]` window: appending `a` and
taking the last `limit ≥ 1` elements always retains `a`. -/
lemma mem_pyTakeLast_concat (l : List α) (a : α) (limit : ℕ) (h : 1 ≤ limit) :
    a ∈ pyTakeLast (l ++ [a]) limit := by
  unfold pyTakeLast
  rw [if_neg (by omega)]
  have hn : (l ++ [a]).length - limit ≤ l.length := by
    simp only [List.length_append, List.length_cons, List.length_nil]
    omega
  rw [List.drop_append_of_le_length hn]
  exact List.mem_append_right _ (List.mem_singleton.mpr rfl)

/-- C10: `record` appends the state unmodified — no clamping, no copying —
so an immediate (non-expired) `get_latest` returns the very state that was
recorded, out-of-range percent included, and `get_history` contains it. -/
theorem c10_record_passthrough (ps : ProgressStore) (st : ProgressState)
    (now now2 : ℚ) (limit : ℕ)
    (hfresh : now2 - now < ps.ttl_seconds) (hlimit : 1 ≤ limit) :
    (ps.record st now).get_latest st.job_id now2 = some st ∧
    st ∈ (ps.record st now).get_history st.job_id now2 limit := by
  have hrec := storeGet_record ps st now
  have httl := record_ttl ps st now
  have hvalid : (ps.record st now).get_valid_records st.job_id now2 =
      ((storeGet ps.records st.job_id).getD []).filter
        (fun r => now2 - r.2 < ps.ttl_seconds) ++ [(st, now)] := by
    simp only [ProgressStore.get_valid_records, hrec, httl]
    rw [List.filter_append]
    simp [hfresh]
  constructor
  · simp only [ProgressStore.get_latest, hrec, hvalid, List.getLast?_concat]
    rfl
  · simp only [ProgressStore.get_history, hrec, hvalid]
    exact List.mem_map_of_mem (fun r => r.1)
      (mem_pyTakeLast_concat _ (st, now) limit hlimit)

/-- Witness for C10: recording a `percent = 150` state into an empty store
and immediately reading it back returns the state with its out-of-range
percent intact. -/
theorem c10_record_passthrough_witness :
    ((ProgressStore.mk 300 []).record stOver 0).get_latest stOver.job_id 0 =
      some stOver ∧
    stOver ∈ ((ProgressStore.mk 300 []).record stOver 0).get_history
      stOver.job_id 0 3 :=
  c10_record_passthrough (ProgressStore.mk 300 []) stOver 0 0 3
    (by norm_num) (by norm_num)

end MediaGrabber
